import Mathlib

/-!
InterviewIQ session controller (`frontend/app/page.js`).

A shallow embedding of the React component `InterviewIQ`: its state
variables, its event handlers (`handleGenerateQuestions`,
`handleSubmitAnswer`, `handleNextQuestion`, `resetApp`, and the inline
`onClick`/`onChange` handlers), and the progress percentage drawn on the
practice screen.

An `async` handler is embedded as one function from the state at the click
and the outcome of its `fetch` to the state after the handler has finished,
paired with the list of requests it issued.  While a request is in flight
the triggering button is disabled and the only other handlers on the same
screen are the `onChange` handlers, which write state variables the
continuation does not write, so the embedding loses no reachable state.
-/

namespace InterviewIQ

/-! ## JavaScript values -/

/-- A value obtained from `response.json()` or from reading a property of
such a value: the JSON values and `undefined`.  A number carries the parsed
value, an object the list of its properties (each key once). -/
inductive JVal where
  | undefined : JVal
  | null : JVal
  | bool (b : Bool) : JVal
  | num (v : ℚ) : JVal
  | str (s : String) : JVal
  | arr (xs : List JVal) : JVal
  | obj (fields : List (String × JVal)) : JVal

/-- JavaScript truthiness (`feedback && ...`). -/
def JVal.truthy : JVal → Bool
  | .undefined => false
  | .null => false
  | .bool b => b
  | .num v => v != 0
  | .str s => s != ""
  | .arr _ => true
  | .obj _ => true

/-- The value is `undefined` or `null`: reading a property of it throws a
`TypeError`. -/
def JVal.isNullish : JVal → Bool
  | .undefined => true
  | .null => true
  | _ => false

/-- Own property of a parsed object. -/
def lookupField (name : String) : List (String × JVal) → Option JVal
  | [] => none
  | (k, v) :: rest => if k = name then some v else lookupField name rest

/-- Property read `v.name` for a name that no built-in prototype defines
(the source reads `questions` and `question`): `none` is the `TypeError`
thrown on `undefined` and `null`; a missing property reads as `undefined`. -/
def JVal.getProp (v : JVal) (name : String) : Option JVal :=
  match v with
  | .undefined => none
  | .null => none
  | .obj fields =>
    match lookupField name fields with
    | some w => some w
    | none => some .undefined
  | _ => some .undefined

/-- Length of a string in UTF-16 code units (`s.length` in JavaScript). -/
def utf16Length (s : String) : Nat :=
  s.data.foldl (fun n c => n + (if c.val < 0x10000 then 1 else 2)) 0

/-- The expression `questions[currentQuestion].question` of
`handleSubmitAnswer`: `none` is the `TypeError` thrown when `questions` or
`questions[currentQuestion]` is `undefined` or `null`. -/
def questionText (questions : JVal) (currentQuestion : Nat) : Option JVal :=
  match questions with
  | .undefined => none
  | .null => none
  | .arr xs =>
    match xs[currentQuestion]? with
    | some q => q.getProp "question"
    | none => none
  | .obj fields =>
    match lookupField (toString currentQuestion) fields with
    | some q => q.getProp "question"
    | none => none
  | .str s => if currentQuestion < utf16Length s then some .undefined else none
  | .num _ => none
  | .bool _ => none

/-! ## Strings -/

/-- The characters `String.prototype.trim` removes: ECMAScript `WhiteSpace`
and `LineTerminator`. -/
def isJsWhitespace (c : Char) : Bool :=
  c.val = 0x09 || c.val = 0x0A || c.val = 0x0B || c.val = 0x0C || c.val = 0x0D ||
  c.val = 0x20 || c.val = 0xA0 || c.val = 0x1680 ||
  (0x2000 ≤ c.val && c.val ≤ 0x200A) ||
  c.val = 0x2028 || c.val = 0x2029 || c.val = 0x202F || c.val = 0x205F ||
  c.val = 0x3000 || c.val = 0xFEFF

/-- Method `String.prototype.trim`: strips leading and trailing white space. -/
def jsTrim (s : String) : String :=
  String.mk ((s.data.dropWhile isJsWhitespace).reverse.dropWhile isJsWhitespace).reverse

/-! ## Component state -/

/-- The values of the `step` state variable. -/
inductive Step where
  | input
  | questions
  | practice
  | feedback
  | complete
  deriving DecidableEq, Repr

/-- The `jobData` state variable. -/
structure JobData where
  title : String
  description : String
  experience_level : String
  deriving DecidableEq, Repr

/-- The state variables of the component, one field per `useState`. -/
structure State where
  step : Step
  jobData : JobData
  questions : JVal
  currentQuestion : Nat
  answer : String
  feedback : JVal
  loading : Bool
  error : String

/-- The arguments of the `useState` calls. -/
def initialState : State :=
  { step := .input
    jobData := { title := "", description := "", experience_level := "entry" }
    questions := .arr []
    currentQuestion := 0
    answer := ""
    feedback := .null
    loading := false
    error := "" }

/-! ## Requests and responses -/

/-- A `POST` issued with `fetch`: the path appended to `API_URL` and the
value passed to `JSON.stringify`. -/
structure Request where
  path : String
  body : JVal

/-- What awaiting `fetch` and then `response.json()` gives: the `fetch`
promise rejects, or it resolves to a response with the flag `response.ok`
and a body, where `body = none` says that the body does not parse as JSON
(`response.json()` rejects). -/
inductive Response where
  | networkError : Response
  | status (ok : Bool) (body : Option JVal) : Response

/-- The object `jobData` as passed to `JSON.stringify`. -/
def JobData.toJVal (j : JobData) : JVal :=
  .obj [("title", .str j.title), ("description", .str j.description),
        ("experience_level", .str j.experience_level)]

/-! ## Event handlers -/

/-- The `catch` and `finally` blocks of `handleGenerateQuestions`, run on
the state after `setLoading(true); setError('')`. -/
def generateFailed (s : State) : State :=
  { s with error := "Failed to generate questions. Please try again.", loading := false }

/-- Handler `handleGenerateQuestions`: the guard on the two text fields, then
the request and the three ways it ends. -/
def handleGenerateQuestions (s : State) (r : Response) : State × List Request :=
  if s.jobData.title = "" ∨ s.jobData.description = "" then
    ({ s with error := "Please fill in all fields" }, [])
  else
    let s1 : State := { s with loading := true, error := "" }
    let req : Request := { path := "/generate-questions", body := s.jobData.toJVal }
    match r with
    | .networkError => (generateFailed s1, [req])
    | .status false _ => (generateFailed s1, [req])
    | .status true none => (generateFailed s1, [req])
    | .status true (some data) =>
      match data.getProp "questions" with
      | none => (generateFailed s1, [req])
      | some qs => ({ s1 with questions := qs, step := .questions, loading := false }, [req])

/-- The `catch` and `finally` blocks of `handleSubmitAnswer`. -/
def evaluateFailed (s : State) : State :=
  { s with error := "Failed to evaluate answer. Please try again.", loading := false }

/-- Handler `handleSubmitAnswer`.  The request body is built inside the `try`
block, so a `TypeError` from `questions[currentQuestion].question` is caught
like a failed request, and no request is issued. -/
def handleSubmitAnswer (s : State) (r : Response) : State × List Request :=
  if jsTrim s.answer = "" then
    ({ s with error := "Please provide an answer" }, [])
  else
    let s1 : State := { s with loading := true, error := "" }
    match questionText s.questions s.currentQuestion with
    | none => (evaluateFailed s1, [])
    | some q =>
      let req : Request :=
        { path := "/evaluate-answer"
          body := .obj [("question", q), ("answer", .str s.answer),
            ("job_context",
              .str (s.jobData.title ++ " - " ++ s.jobData.experience_level ++ " level"))] }
      match r with
      | .networkError => (evaluateFailed s1, [req])
      | .status false _ => (evaluateFailed s1, [req])
      | .status true none => (evaluateFailed s1, [req])
      | .status true (some data) =>
        ({ s1 with feedback := data, step := .feedback, loading := false }, [req])

/-- The condition `currentQuestion < questions.length - 1`, for `questions`
an array (`none` otherwise: on other values the comparison goes through
property lookup and numeric coercion, which are not embedded).  The
subtraction is on integers: an empty array gives `-1`. -/
def hasNextQuestion (s : State) : Option Bool :=
  match s.questions with
  | .arr xs => some (decide ((s.currentQuestion : Int) < (xs.length : Int) - 1))
  | _ => none

/-- Handler `handleNextQuestion`, where `hasNextQuestion` is defined. -/
def handleNextQuestion (s : State) : Option State :=
  match hasNextQuestion s with
  | some true =>
    some { s with currentQuestion := s.currentQuestion + 1, answer := "",
                  feedback := .null, step := .practice }
  | some false => some { s with step := .complete }
  | none => none

/-- Handler `resetApp`: seven setters, `setLoading` is not among them. -/
def resetApp (s : State) : State :=
  { s with step := .input
           jobData := { title := "", description := "", experience_level := "entry" }
           questions := .arr []
           currentQuestion := 0
           answer := ""
           feedback := .null
           error := "" }

/-- The `onClick` of the Start Practice Session button:
`() => setStep('practice')`. -/
def startPractice (s : State) : State :=
  { s with step := .practice }

/-- The `onClick` of the Complete Session button:
`() => setStep('complete')`. -/
def completeSession (s : State) : State :=
  { s with step := .complete }

/-- The `onChange` handlers of the job form (`setJobData`); each of the
three writes one field of the object and this covers all of them. -/
def setJobData (s : State) (j : JobData) : State :=
  { s with jobData := j }

/-- The `onChange` of the answer box: `setAnswer(e.target.value)`. -/
def setAnswer (s : State) (a : String) : State :=
  { s with answer := a }

/-- The advance button of the feedback screen.  The screen is drawn when
`step === 'feedback' && feedback`; it shows Next Question
(`handleNextQuestion`) when `currentQuestion < questions.length - 1` and
Complete Session otherwise.  `none`: no such button is on the screen. -/
def advance (s : State) : Option State :=
  if s.step = .feedback ∧ s.feedback.truthy = true then
    match hasNextQuestion s with
    | some true => handleNextQuestion s
    | some false => some (completeSession s)
    | none => none
  else none

/-- An answer is blank when every character of it is white space (the empty
string included). -/
def isBlank (s : String) : Prop :=
  ∀ c ∈ s.data, isJsWhitespace c = true

/-! ## Records of the backend interface -/

/-- An element of the `questions` array of a well-formed
`/generate-questions` response. -/
structure Question where
  question : String
  category : String
  difficulty : String

/-- The parsed JSON object of a question. -/
def Question.toJVal (q : Question) : JVal :=
  .obj [("question", .str q.question), ("category", .str q.category),
        ("difficulty", .str q.difficulty)]

/-- The body of a well-formed `/evaluate-answer` response. -/
structure Feedback where
  score : ℚ
  strengths : List String
  improvements : List String
  sample_answer : String

/-- The parsed JSON object of a feedback record. -/
def Feedback.toJVal (f : Feedback) : JVal :=
  .obj [("score", .num f.score), ("strengths", .arr (f.strengths.map JVal.str)),
        ("improvements", .arr (f.improvements.map JVal.str)),
        ("sample_answer", .str f.sample_answer)]

/-! ## Sessions -/

/-- One round of practice: the user types the answer `a`, presses Get
Feedback, the backend answers with success and the feedback record `fb`, and
the user presses the advance button of the feedback screen. -/
def practiceRound (s : State) (a : String) (fb : Feedback) : Option State :=
  advance (handleSubmitAnswer (setAnswer s a) (.status true (some fb.toJVal))).1

/-- Rounds of practice in sequence, one per element of the list. -/
def practiceRounds : State → List (String × Feedback) → Option State
  | s, [] => some s
  | s, (a, fb) :: rest =>
    match practiceRound s a fb with
    | some s1 => practiceRounds s1 rest
    | none => none

/-- The states the component can be in: the initial state closed under the
handlers, each taken on the screen that draws its control.  The job form and
Generate are on the input screen; Start Practice is on the questions screen,
which draws its list with `questions.map` and so needs an array; the answer
box and Get Feedback are on the practice screen; Next Question, Complete
Session and Start Over are on the feedback screen, drawn when `feedback` is
truthy; Practice Another Job is on the complete screen.  The backend
response of a request is arbitrary. -/
inductive Reachable : State → Prop where
  | init : Reachable initialState
  | editJob (s : State) (j : JobData) :
      Reachable s → s.step = .input → Reachable (setJobData s j)
  | generate (s : State) (r : Response) :
      Reachable s → s.step = .input → Reachable (handleGenerateQuestions s r).1
  | start (s : State) (xs : List JVal) :
      Reachable s → s.step = .questions → s.questions = .arr xs →
      Reachable (startPractice s)
  | editAnswer (s : State) (a : String) :
      Reachable s → s.step = .practice → Reachable (setAnswer s a)
  | submit (s : State) (r : Response) :
      Reachable s → s.step = .practice → Reachable (handleSubmitAnswer s r).1
  | next (s s1 : State) :
      Reachable s → s.step = .feedback → s.feedback.truthy = true →
      handleNextQuestion s = some s1 → Reachable s1
  | complete (s : State) :
      Reachable s → s.step = .feedback → s.feedback.truthy = true →
      Reachable (completeSession s)
  | restart (s : State) :
      Reachable s → (s.step = .feedback ∧ s.feedback.truthy = true) ∨ s.step = .complete →
      Reachable (resetApp s)

/-! ## Progress percentage -/

/-- Rounding of a rational to the nearest integer, ties to the even one. -/
def roundHalfEven (q : ℚ) : ℤ :=
  let f := ⌊q⌋
  let r := q - f
  if r < 1 / 2 then f else if 1 / 2 < r then f + 1 else if f % 2 = 0 then f else f + 1

/-- The double nearest to `q` (IEEE 754 binary64, round to nearest, ties to
even): `q` is rounded to a multiple of `2 ^ (e - 52)`, where
`2 ^ e ≤ |q| < 2 ^ (e + 1)`.  The exponent is not bounded, so the value is
the double for `q` in the normal range, `2 ^ (-1022) ≤ |q| < 2 ^ 1024`. -/
def toDouble (q : ℚ) : ℚ :=
  if q = 0 then 0
  else
    let u : ℚ := (2 : ℚ) ^ (Int.log 2 |q| - 52)
    (roundHalfEven (q / u) : ℚ) * u

/-- Function `Math.round` on a finite number: the nearest integer, a tie
going up. -/
def mathRound (x : ℚ) : ℤ :=
  ⌊x + 1 / 2⌋

/-- The number in front of `% Complete` on the practice screen,
`Math.round(((currentQuestion) / questions.length) * 100)`, for an array of
`length` elements.  An index and an array length are integers below
`2 ^ 53`, so they are doubles as they stand, and so is `100`; the quotient
and the product are each rounded to a double.  `none` when `length` is
zero: the quotient is then `NaN` or `Infinity` and so is the result. -/
def progressPercent (currentQuestion length : Nat) : Option ℤ :=
  if length = 0 then none
  else some (mathRound (toDouble (toDouble ((currentQuestion : ℚ) / (length : ℚ)) * 100)))

/-! ## The index invariant -/

/-- The invariant carried along the transitions: the index is `0` on the
input and questions screens, and within a non-empty questions array on
every screen. -/
def IndexInv (s : State) : Prop :=
  ((s.step = Step.input ∨ s.step = Step.questions) → s.currentQuestion = 0) ∧
  (∀ xs, s.questions = JVal.arr xs → xs ≠ [] → s.currentQuestion < xs.length)

/-! ## Shape of a response body -/

/-- A question record: an object whose `question`, `category` and
`difficulty` are strings. -/
def isQuestionRecord : JVal → Bool
  | .obj fields =>
    (match lookupField "question" fields with | some (.str _) => true | _ => false) &&
    (match lookupField "category" fields with | some (.str _) => true | _ => false) &&
    (match lookupField "difficulty" fields with | some (.str _) => true | _ => false)
  | _ => false

/-- The success response of `/generate-questions` as the interface
describes it: an object whose `questions` is an array of question records. -/
def isQuestionsBody : JVal → Bool
  | .obj fields =>
    match lookupField "questions" fields with
    | some (.arr xs) => xs.all isQuestionRecord
    | _ => false
  | _ => false

/-! ## A session -/

/-- The job form filled in as in the scenario of the specification. -/
def backendEngineerForm : State :=
  setJobData initialState
    { title := "Backend Engineer", description := "Design and run services",
      experience_level := "mid" }

/-- The state after Generate when the backend answers with success and the
body `{"questions": []}`. -/
def emptyQuestionsState : State :=
  (handleGenerateQuestions backendEngineerForm
    (Response.status true (some (JVal.obj [("questions", JVal.arr [])])))).1

/-- The state after Generate when the backend answers with success and one
question. -/
def oneQuestionState : State :=
  (handleGenerateQuestions backendEngineerForm
    (Response.status true (some (JVal.obj [("questions", JVal.arr
      [Question.toJVal { question := "What is an index?", category := "technical",
                         difficulty := "easy" }])])))).1

/-- Three questions, as in the scenario of the specification. -/
def scenarioQuestions : List Question :=
  [ { question := "What is an index?", category := "technical", difficulty := "easy" },
    { question := "How do you shard a table?", category := "technical", difficulty := "hard" },
    { question := "Tell me about an outage.", category := "behavioral", difficulty := "medium" } ]

/-- The practice screen at the first of the three questions: Generate
answered with success and the three questions, then Start Practice. -/
def scenarioPractice : State :=
  startPractice (handleGenerateQuestions backendEngineerForm
    (Response.status true (some (JVal.obj
      [("questions", JVal.arr (scenarioQuestions.map Question.toJVal))])))).1

/-- A feedback record. -/
def scenarioFeedback : Feedback :=
  { score := 7, strengths := ["Clear structure"], improvements := ["Give numbers"],
    sample_answer := "An index is a sorted copy of a column." }

/-- Three rounds, each with a non-blank answer. -/
def scenarioRounds : List (String × Feedback) :=
  [("A sorted copy", scenarioFeedback), ("By key range", scenarioFeedback),
   ("We lost a disk", scenarioFeedback)]

/-- The practice screen with only white space typed into the answer box. -/
def blankAnswerState : State :=
  setAnswer scenarioPractice "  \t\n "

/-- The practice screen with an answer typed. -/
def answeredState : State :=
  setAnswer scenarioPractice "A sorted copy"

/-- The feedback screen of the first question. -/
def feedbackState : State :=
  (handleSubmitAnswer answeredState
    (Response.status true (some scenarioFeedback.toJVal))).1

/-! ## Trimming -/

theorem jsTrim_eq_empty_iff (s : String) : jsTrim s = "" ↔ isBlank s := by
  unfold jsTrim isBlank
  constructor
  · intro h
    have h1 : ((s.data.dropWhile isJsWhitespace).reverse.dropWhile isJsWhitespace).reverse
        = [] := by
      have := congrArg String.data h
      simpa using this
    have h2 : (s.data.dropWhile isJsWhitespace).reverse.dropWhile isJsWhitespace = [] := by
      simpa using h1
    rw [List.dropWhile_eq_nil_iff] at h2
    by_cases hne : s.data.dropWhile isJsWhitespace = []
    · exact List.dropWhile_eq_nil_iff.mp hne
    · exfalso
      have hhead := List.head_dropWhile_not isJsWhitespace s.data hne
      have hmem : (s.data.dropWhile isJsWhitespace).head hne ∈
          (s.data.dropWhile isJsWhitespace).reverse :=
        List.mem_reverse.mpr (List.head_mem hne)
      have := h2 _ hmem
      simp [hhead] at this
  · intro h
    have h1 : s.data.dropWhile isJsWhitespace = [] := List.dropWhile_eq_nil_iff.mpr h
    simp [h1]

theorem questionText_questions (qs : List Question) (i : Nat) (h : i < qs.length) :
    ∃ q, questionText (JVal.arr (qs.map Question.toJVal)) i = some q := by
  have hget : (qs.map Question.toJVal)[i]? = some (qs[i].toJVal) := by
    simp [List.getElem?_map, List.getElem?_eq_getElem h]
  refine ⟨JVal.str qs[i].question, ?_⟩
  simp [questionText, hget, Question.toJVal, JVal.getProp, lookupField]

/-! ## The example session -/

theorem reachable_backendEngineerForm : Reachable backendEngineerForm :=
  Reachable.editJob _ _ Reachable.init rfl

theorem backendEngineerForm_filled :
    backendEngineerForm.jobData.title ≠ "" ∧ backendEngineerForm.jobData.description ≠ "" := by
  simp [backendEngineerForm, setJobData]

theorem scenarioPractice_fields :
    scenarioPractice.step = Step.practice ∧ scenarioPractice.currentQuestion = 0 ∧
    scenarioPractice.questions = JVal.arr (scenarioQuestions.map Question.toJVal) := by
  simp [scenarioPractice, startPractice, handleGenerateQuestions, backendEngineerForm,
    setJobData, initialState, JVal.getProp, lookupField]

theorem reachable_scenarioPractice : Reachable scenarioPractice := by
  refine Reachable.start _ (scenarioQuestions.map Question.toJVal)
    (Reachable.generate _ _ reachable_backendEngineerForm rfl) ?_ ?_ <;>
  simp [handleGenerateQuestions, backendEngineerForm, setJobData, initialState,
    JVal.getProp, lookupField]

theorem not_isBlank_of_mem (a : String) (c : Char) (hc : c ∈ a.data)
    (hw : isJsWhitespace c = false) : ¬ isBlank a := by
  intro h
  have := h c hc
  rw [hw] at this
  exact Bool.noConfusion this

theorem answeredState_fields :
    answeredState.step = Step.practice ∧ ¬ isBlank answeredState.answer := by
  refine ⟨scenarioPractice_fields.1, ?_⟩
  exact not_isBlank_of_mem _ 'A' (by simp [answeredState, setAnswer]) (by decide)

theorem feedbackState_fields :
    feedbackState.step = Step.feedback ∧ feedbackState.currentQuestion = 0 ∧
    feedbackState.questions = JVal.arr (scenarioQuestions.map Question.toJVal) := by
  have hne : ¬ jsTrim answeredState.answer = "" := fun h =>
    answeredState_fields.2 ((jsTrim_eq_empty_iff _).mp h)
  have hq : answeredState.questions = JVal.arr (scenarioQuestions.map Question.toJVal) :=
    scenarioPractice_fields.2.2
  have hc : answeredState.currentQuestion = 0 := scenarioPractice_fields.2.1
  obtain ⟨q, hqt⟩ := questionText_questions scenarioQuestions 0 (by decide)
  unfold feedbackState handleSubmitAnswer
  rw [if_neg hne]
  simp [hq, hc, hqt]

/-! ## Restart -/

/-- C3: from every state `resetApp` gives the initial values to the screen,
the job data, the questions, the index, the answer, the feedback and the
error; the result is the initial state but for the `loading` flag, which
`resetApp` does not write. -/
theorem resetApp_initial (s : State) :
    (resetApp s).step = Step.input ∧
    (resetApp s).jobData = { title := "", description := "", experience_level := "entry" } ∧
    (resetApp s).questions = JVal.arr [] ∧
    (resetApp s).currentQuestion = 0 ∧
    (resetApp s).answer = "" ∧
    (resetApp s).feedback = JVal.null ∧
    (resetApp s).error = "" ∧
    resetApp s = { initialState with loading := s.loading } :=
  ⟨rfl, rfl, rfl, rfl, rfl, rfl, rfl, rfl⟩

/-! ## Validation guards -/

/-- C4: on the input screen, with an empty title or an empty description
`handleGenerateQuestions` issues no request, stays on the input screen and
sets the error to the validation message; with both non-empty it issues the
request, whatever the backend then answers. -/
theorem handleGenerateQuestions_guard (s : State) (r : Response)
    (hstep : s.step = Step.input) :
    ((s.jobData.title = "" ∨ s.jobData.description = "") →
      (handleGenerateQuestions s r).2 = [] ∧
      (handleGenerateQuestions s r).1.step = Step.input ∧
      (handleGenerateQuestions s r).1.error = "Please fill in all fields") ∧
    ((s.jobData.title ≠ "" ∧ s.jobData.description ≠ "") →
      (handleGenerateQuestions s r).2 =
        [{ path := "/generate-questions", body := s.jobData.toJVal }]) := by
  constructor
  · intro h
    simp [handleGenerateQuestions, h, hstep]
  · rintro ⟨h1, h2⟩
    unfold handleGenerateQuestions
    rw [if_neg (by simp [h1, h2])]
    rcases r with _ | ⟨ok, body⟩
    · rfl
    · cases ok
      · rfl
      · cases body with
        | none => rfl
        | some data =>
          simp only
          cases data.getProp "questions" <;> rfl

theorem handleGenerateQuestions_guard_witness :
    initialState.step = Step.input ∧
    (initialState.jobData.title = "" ∨ initialState.jobData.description = "") ∧
    (handleGenerateQuestions initialState Response.networkError).2 = [] ∧
    (handleGenerateQuestions initialState Response.networkError).1.step = Step.input ∧
    (handleGenerateQuestions initialState Response.networkError).1.error =
      "Please fill in all fields" :=
  ⟨rfl, Or.inl rfl,
    (handleGenerateQuestions_guard initialState Response.networkError rfl).1 (Or.inl rfl)⟩

/-- C5: on the practice screen, with an answer that is empty or all white
space `handleSubmitAnswer` issues no request, stays on the practice screen
and sets the error to the validation message. -/
theorem handleSubmitAnswer_guard (s : State) (r : Response)
    (hstep : s.step = Step.practice) (hblank : isBlank s.answer) :
    (handleSubmitAnswer s r).2 = [] ∧
    (handleSubmitAnswer s r).1.step = Step.practice ∧
    (handleSubmitAnswer s r).1.error = "Please provide an answer" := by
  have h := (jsTrim_eq_empty_iff s.answer).mpr hblank
  simp [handleSubmitAnswer, h, hstep]

theorem handleSubmitAnswer_guard_witness :
    blankAnswerState.step = Step.practice ∧ isBlank blankAnswerState.answer ∧
    (handleSubmitAnswer blankAnswerState Response.networkError).2 = [] ∧
    (handleSubmitAnswer blankAnswerState Response.networkError).1.step = Step.practice ∧
    (handleSubmitAnswer blankAnswerState Response.networkError).1.error =
      "Please provide an answer" :=
  have hstep : blankAnswerState.step = Step.practice := scenarioPractice_fields.1
  have hblank : isBlank blankAnswerState.answer := by
    unfold isBlank
    decide
  ⟨hstep, hblank, handleSubmitAnswer_guard blankAnswerState Response.networkError hstep hblank⟩

/-! ## Failed requests -/

/-- C6: when the backend answers a request with a non-success status, the
screen stays, the error is the generic message of the operation, and job
data, questions, index, answer and feedback are as before; for Generate on
the input screen with both fields filled and for Get Feedback on the
practice screen with a non-blank answer. -/
theorem non_success_status_keeps_session (s : State) (body : Option JVal) :
    (s.step = Step.input → s.jobData.title ≠ "" → s.jobData.description ≠ "" →
      (handleGenerateQuestions s (Response.status false body)).1.step = Step.input ∧
      (handleGenerateQuestions s (Response.status false body)).1.error =
        "Failed to generate questions. Please try again." ∧
      (handleGenerateQuestions s (Response.status false body)).1.jobData = s.jobData ∧
      (handleGenerateQuestions s (Response.status false body)).1.questions = s.questions ∧
      (handleGenerateQuestions s (Response.status false body)).1.currentQuestion =
        s.currentQuestion ∧
      (handleGenerateQuestions s (Response.status false body)).1.answer = s.answer ∧
      (handleGenerateQuestions s (Response.status false body)).1.feedback = s.feedback) ∧
    (s.step = Step.practice → ¬ isBlank s.answer →
      (handleSubmitAnswer s (Response.status false body)).1.step = Step.practice ∧
      (handleSubmitAnswer s (Response.status false body)).1.error =
        "Failed to evaluate answer. Please try again." ∧
      (handleSubmitAnswer s (Response.status false body)).1.jobData = s.jobData ∧
      (handleSubmitAnswer s (Response.status false body)).1.questions = s.questions ∧
      (handleSubmitAnswer s (Response.status false body)).1.currentQuestion =
        s.currentQuestion ∧
      (handleSubmitAnswer s (Response.status false body)).1.answer = s.answer ∧
      (handleSubmitAnswer s (Response.status false body)).1.feedback = s.feedback) := by
  constructor
  · intro hstep h1 h2
    unfold handleGenerateQuestions
    rw [if_neg (by simp [h1, h2])]
    simp [generateFailed, hstep]
  · intro hstep hb
    have hne : ¬ jsTrim s.answer = "" := fun h => hb ((jsTrim_eq_empty_iff s.answer).mp h)
    unfold handleSubmitAnswer
    rw [if_neg hne]
    cases questionText s.questions s.currentQuestion <;> simp [evaluateFailed, hstep]

theorem non_success_status_keeps_session_witness :
    (backendEngineerForm.step = Step.input ∧ backendEngineerForm.jobData.title ≠ "" ∧
      backendEngineerForm.jobData.description ≠ "" ∧
      (handleGenerateQuestions backendEngineerForm (Response.status false none)).1.error =
        "Failed to generate questions. Please try again.") ∧
    (answeredState.step = Step.practice ∧ ¬ isBlank answeredState.answer ∧
      (handleSubmitAnswer answeredState (Response.status false none)).1.error =
        "Failed to evaluate answer. Please try again.") :=
  ⟨⟨rfl, backendEngineerForm_filled.1, backendEngineerForm_filled.2,
      ((non_success_status_keeps_session backendEngineerForm none).1 rfl
        backendEngineerForm_filled.1 backendEngineerForm_filled.2).2.1⟩,
    ⟨answeredState_fields.1, answeredState_fields.2,
      ((non_success_status_keeps_session answeredState none).2 answeredState_fields.1
        answeredState_fields.2).2.1⟩⟩

/-! ## Next question -/

/-- C7: with `currentQuestion < questions.length - 1`, on the feedback screen
as on any other, `handleNextQuestion` adds one to the index, empties the
answer, sets the feedback to `null` and shows the practice screen; job data,
questions and error stay. -/
theorem handleNextQuestion_advances (s : State) (xs : List JVal)
    (hq : s.questions = JVal.arr xs)
    (hlt : (s.currentQuestion : Int) < (xs.length : Int) - 1) :
    ∃ s1, handleNextQuestion s = some s1 ∧
      s1.currentQuestion = s.currentQuestion + 1 ∧
      s1.answer = "" ∧
      s1.feedback = JVal.null ∧
      s1.step = Step.practice ∧
      s1.jobData = s.jobData ∧
      s1.questions = s.questions ∧
      s1.error = s.error ∧
      s1.loading = s.loading := by
  have h : hasNextQuestion s = some true := by
    simp [hasNextQuestion, hq, hlt]
  refine ⟨{ s with currentQuestion := s.currentQuestion + 1, answer := "",
                     feedback := JVal.null, step := Step.practice }, ?_,
    rfl, rfl, rfl, rfl, rfl, rfl, rfl, rfl⟩
  simp [handleNextQuestion, h]

theorem handleNextQuestion_advances_witness :
    feedbackState.questions = JVal.arr (scenarioQuestions.map Question.toJVal) ∧
    (feedbackState.currentQuestion : Int) <
      ((scenarioQuestions.map Question.toJVal).length : Int) - 1 ∧
    ∃ s1, handleNextQuestion feedbackState = some s1 ∧
      s1.currentQuestion = feedbackState.currentQuestion + 1 ∧ s1.step = Step.practice :=
  have hq := feedbackState_fields.2.2
  have hlt : (feedbackState.currentQuestion : Int) <
      ((scenarioQuestions.map Question.toJVal).length : Int) - 1 := by
    rw [feedbackState_fields.2.1]
    decide
  ⟨hq, hlt,
    (handleNextQuestion_advances feedbackState _ hq hlt).elim
      (fun s1 h => ⟨s1, h.1, h.2.1, h.2.2.2.2.1⟩)⟩

/-! ## The index invariant -/

theorem handleGenerateQuestions_fields (s : State) (r : Response) :
    (handleGenerateQuestions s r).1.currentQuestion = s.currentQuestion ∧
    (((handleGenerateQuestions s r).1.step = s.step ∧
      (handleGenerateQuestions s r).1.questions = s.questions) ∨
     (handleGenerateQuestions s r).1.step = Step.questions) := by
  unfold handleGenerateQuestions
  split
  · exact ⟨rfl, Or.inl ⟨rfl, rfl⟩⟩
  · rcases r with _ | ⟨ok, body⟩
    · exact ⟨rfl, Or.inl ⟨rfl, rfl⟩⟩
    · cases ok
      · exact ⟨rfl, Or.inl ⟨rfl, rfl⟩⟩
      · cases body with
        | none => exact ⟨rfl, Or.inl ⟨rfl, rfl⟩⟩
        | some data =>
          simp only
          cases data.getProp "questions"
          · exact ⟨rfl, Or.inl ⟨rfl, rfl⟩⟩
          · exact ⟨rfl, Or.inr rfl⟩

theorem handleSubmitAnswer_fields (s : State) (r : Response) :
    (handleSubmitAnswer s r).1.currentQuestion = s.currentQuestion ∧
    (handleSubmitAnswer s r).1.questions = s.questions ∧
    ((handleSubmitAnswer s r).1.step = s.step ∨
     (handleSubmitAnswer s r).1.step = Step.feedback) := by
  unfold handleSubmitAnswer
  split
  · exact ⟨rfl, rfl, Or.inl rfl⟩
  · cases questionText s.questions s.currentQuestion with
    | none => exact ⟨rfl, rfl, Or.inl rfl⟩
    | some q =>
      rcases r with _ | ⟨ok, body⟩
      · exact ⟨rfl, rfl, Or.inl rfl⟩
      · cases ok
        · exact ⟨rfl, rfl, Or.inl rfl⟩
        · cases body with
          | none => exact ⟨rfl, rfl, Or.inl rfl⟩
          | some data => exact ⟨rfl, rfl, Or.inr rfl⟩

theorem reachable_indexInv (s : State) (h : Reachable s) : IndexInv s := by
  induction h with
  | init => exact ⟨fun _ => rfl, fun xs hq hne => by simp [initialState] at hq; exact absurd hq hne⟩
  | editJob s j _ _ ih => exact ih
  | generate s r _ hstep ih =>
    obtain ⟨hc, hrest⟩ := handleGenerateQuestions_fields s r
    have h0 : s.currentQuestion = 0 := ih.1 (Or.inl hstep)
    refine ⟨fun _ => by rw [hc, h0], fun xs hq hne => ?_⟩
    rw [hc, h0]
    exact List.length_pos.mpr hne
  | start s xs _ hstep _ ih =>
    have h0 : s.currentQuestion = 0 := ih.1 (Or.inr hstep)
    refine ⟨fun h => by simp [startPractice] at h, fun ys hq hne => ?_⟩
    show s.currentQuestion < ys.length
    rw [h0]
    exact List.length_pos.mpr hne
  | editAnswer s a _ hstep ih =>
    refine ⟨fun h => ?_, ih.2⟩
    have : s.step = Step.input ∨ s.step = Step.questions := h
    rw [hstep] at this
    simp at this
  | submit s r _ hstep ih =>
    obtain ⟨hc, hq, hs⟩ := handleSubmitAnswer_fields s r
    refine ⟨fun h => ?_, fun xs hx hne => ?_⟩
    · rcases hs with hs | hs <;> rw [hs] at h
      · rw [hstep] at h
        simp at h
      · simp at h
    · rw [hc]
      exact ih.2 xs (hq ▸ hx) hne
  | next s s1 _ hstep _ hnext ih =>
    unfold handleNextQuestion hasNextQuestion at hnext
    cases hqs : s.questions with
    | arr xs =>
      rw [hqs] at hnext
      by_cases hlt : (s.currentQuestion : Int) < (xs.length : Int) - 1
      · simp [hlt] at hnext
        subst hnext
        refine ⟨fun h => by simp at h, fun ys hy _ => ?_⟩
        simp only [hqs, JVal.arr.injEq] at hy
        subst hy
        show s.currentQuestion + 1 < xs.length
        omega
      · simp [hlt] at hnext
        subst hnext
        refine ⟨fun h => by simp at h, fun ys hy hne => ?_⟩
        exact ih.2 ys (hqs.trans hy) hne
    | _ => rw [hqs] at hnext; simp at hnext
  | complete s _ _ _ ih =>
    exact ⟨fun h => by simp [completeSession] at h, ih.2⟩
  | restart s _ _ _ =>
    exact ⟨fun _ => rfl, fun xs hq hne => by simp [resetApp] at hq; exact absurd hq hne⟩

/-- On the practice, feedback and complete screens the questions are an
array, so `hasNextQuestion` and `handleNextQuestion` are defined wherever
the component offers them. -/
theorem reachable_questions_array (s : State) (h : Reachable s) :
    (s.step = Step.practice ∨ s.step = Step.feedback ∨ s.step = Step.complete) →
    ∃ xs, s.questions = JVal.arr xs := by
  induction h with
  | init => intro h; simp [initialState] at h
  | editJob s j _ hstep _ =>
    intro h
    have : s.step = Step.practice ∨ s.step = Step.feedback ∨ s.step = Step.complete := h
    rw [hstep] at this
    simp at this
  | generate s r _ hstep _ =>
    intro h
    obtain ⟨_, hrest⟩ := handleGenerateQuestions_fields s r
    rcases hrest with ⟨hs, _⟩ | hs
    · rw [hs, hstep] at h
      simp at h
    · rw [hs] at h
      simp at h
  | start s xs _ _ hq _ => exact fun _ => ⟨xs, hq⟩
  | editAnswer s a _ hstep ih => exact fun _ => ih (Or.inl hstep)
  | submit s r _ hstep ih =>
    intro _
    obtain ⟨_, hq, _⟩ := handleSubmitAnswer_fields s r
    rw [hq]
    exact ih (Or.inl hstep)
  | next s s1 _ hstep _ hnext ih =>
    intro _
    obtain ⟨xs, hxs⟩ := ih (Or.inr (Or.inl hstep))
    unfold handleNextQuestion hasNextQuestion at hnext
    rw [hxs] at hnext
    by_cases hlt : (s.currentQuestion : Int) < (xs.length : Int) - 1
    · simp [hlt] at hnext
      subst hnext
      exact ⟨xs, rfl⟩
    · simp [hlt] at hnext
      subst hnext
      exact ⟨xs, rfl⟩
  | complete s _ hstep _ ih => exact fun _ => ih (Or.inr (Or.inl hstep))
  | restart s _ _ _ => intro h; simp [resetApp] at h

theorem reachable_feedback_advance_defined (s : State) (h : Reachable s)
    (hstep : s.step = Step.feedback) (hfb : s.feedback.truthy = true) :
    ∃ s1, advance s = some s1 := by
  obtain ⟨xs, hxs⟩ := reachable_questions_array s h (Or.inr (Or.inl hstep))
  by_cases hlt : (s.currentQuestion : Int) < (xs.length : Int) - 1
  · refine ⟨{ s with currentQuestion := s.currentQuestion + 1, answer := "",
                     feedback := JVal.null, step := Step.practice }, ?_⟩
    simp [advance, hstep, hfb, hasNextQuestion, handleNextQuestion, hxs, hlt]
  · refine ⟨completeSession s, ?_⟩
    simp [advance, hstep, hfb, hasNextQuestion, hxs, hlt]

/-- C1: in every state reachable from the initial state, when the questions
are a non-empty list the index is within it: `0 ≤ currentQuestion` and
`currentQuestion < questions.length`. -/
theorem reachable_index_in_range (s : State) (xs : List JVal)
    (hreach : Reachable s) (hq : s.questions = JVal.arr xs) (hne : xs ≠ []) :
    0 ≤ s.currentQuestion ∧ s.currentQuestion < xs.length :=
  ⟨Nat.zero_le _, (reachable_indexInv s hreach).2 xs hq hne⟩

theorem reachable_index_in_range_witness :
    Reachable scenarioPractice ∧
    scenarioPractice.questions = JVal.arr (scenarioQuestions.map Question.toJVal) ∧
    scenarioQuestions.map Question.toJVal ≠ [] ∧
    0 ≤ scenarioPractice.currentQuestion ∧
    scenarioPractice.currentQuestion < (scenarioQuestions.map Question.toJVal).length :=
  have hne : scenarioQuestions.map Question.toJVal ≠ [] := by
    simp [scenarioQuestions]
  ⟨reachable_scenarioPractice, scenarioPractice_fields.2.2, hne,
    reachable_index_in_range scenarioPractice _ reachable_scenarioPractice
      scenarioPractice_fields.2.2 hne⟩

/-! ## Practice rounds -/

theorem practiceRound_spec (s : State) (qs : List Question) (a : String) (fb : Feedback)
    (hq : s.questions = JVal.arr (qs.map Question.toJVal))
    (hlt : s.currentQuestion < qs.length) (ha : ¬ isBlank a) :
    ∃ s1, practiceRound s a fb = some s1 ∧ s1.questions = s.questions ∧
      (s.currentQuestion + 1 < qs.length →
        s1.step = Step.practice ∧ s1.currentQuestion = s.currentQuestion + 1) ∧
      (s.currentQuestion + 1 = qs.length → s1.step = Step.complete) := by
  have hne : ¬ jsTrim a = "" := fun h => ha ((jsTrim_eq_empty_iff a).mp h)
  obtain ⟨q, hqt⟩ := questionText_questions qs s.currentQuestion hlt
  have hsub : (handleSubmitAnswer (setAnswer s a)
      (Response.status true (some fb.toJVal))).1 =
      { s with answer := a, error := "", feedback := fb.toJVal, step := Step.feedback,
               loading := false } := by
    unfold handleSubmitAnswer
    simp [setAnswer, hne, hq, hqt]
  unfold practiceRound
  rw [hsub]
  by_cases hnext : s.currentQuestion + 1 < qs.length
  · have hlt2 : (s.currentQuestion : Int) < (qs.length : Int) - 1 := by omega
    refine ⟨{ s with answer := "", error := "", feedback := JVal.null, step := Step.practice,
                     loading := false, currentQuestion := s.currentQuestion + 1 }, ?_, rfl,
      fun _ => ⟨rfl, rfl⟩, fun h => by omega⟩
    simp [advance, hasNextQuestion, handleNextQuestion, hq, hlt2, Feedback.toJVal, JVal.truthy]
  · have hlt2 : ¬ (s.currentQuestion : Int) < (qs.length : Int) - 1 := by omega
    refine ⟨{ s with answer := a, error := "", feedback := fb.toJVal, step := Step.complete,
                     loading := false }, ?_, rfl, fun h => absurd h hnext, fun _ => rfl⟩
    simp [advance, hasNextQuestion, completeSession, hq, hlt2, Feedback.toJVal, JVal.truthy]

theorem practiceRounds_spec (qs : List Question) (rs : List (String × Feedback)) :
    ∀ s : State, s.step = Step.practice →
      s.questions = JVal.arr (qs.map Question.toJVal) →
      s.currentQuestion < qs.length →
      (∀ r ∈ rs, ¬ isBlank r.1) →
      s.currentQuestion + rs.length ≤ qs.length →
      ∃ s1, practiceRounds s rs = some s1 ∧
        (s.currentQuestion + rs.length < qs.length →
          s1.step = Step.practice ∧ s1.currentQuestion = s.currentQuestion + rs.length) ∧
        (s.currentQuestion + rs.length = qs.length → s1.step = Step.complete) := by
  induction rs with
  | nil =>
    intro s hstep _ hlt _ _
    exact ⟨s, rfl, fun _ => ⟨hstep, rfl⟩, fun h => by simp at h; omega⟩
  | cons r rest ih =>
    intro s hstep hq hlt hans hlen
    obtain ⟨a, fb⟩ := r
    have ha : ¬ isBlank a := hans (a, fb) (List.mem_cons_self _ _)
    obtain ⟨s1, hround, hq1, hpr, hco⟩ := practiceRound_spec s qs a fb hq hlt ha
    simp only [List.length_cons] at hlen ⊢
    by_cases hnext : s.currentQuestion + 1 < qs.length
    · obtain ⟨hs1, hc1⟩ := hpr hnext
      obtain ⟨s2, hrounds, h1, h2⟩ := ih s1 hs1 (hq1.trans hq) (by omega)
        (fun r hr => hans r (List.mem_cons_of_mem _ hr)) (by omega)
      refine ⟨s2, by simp [practiceRounds, hround, hrounds], fun h => ?_, fun h => ?_⟩
      · have := h1 (by omega)
        exact ⟨this.1, by omega⟩
      · exact h2 (by omega)
    · have hrest : rest = [] := List.eq_nil_of_length_eq_zero (by omega)
      subst hrest
      refine ⟨s1, by simp [practiceRounds, hround], fun h => ?_, fun _ => hco (by omega)⟩
      simp at h
      omega

/-- C8: with a list of `N ≥ 1` questions, starting on the practice screen at
index 0, after `k` rounds (a non-blank answer, a successful evaluation, the
advance button) the component is on the practice screen at index `k` for
every `k < N`, and on the complete screen for `k = N`: the complete screen
is reached by the `N`-th advance and by none before it. -/
theorem practice_rounds_reach_complete (s : State) (qs : List Question)
    (rs : List (String × Feedback))
    (hN : 1 ≤ qs.length)
    (hstep : s.step = Step.practice) (hidx : s.currentQuestion = 0)
    (hq : s.questions = JVal.arr (qs.map Question.toJVal))
    (hans : ∀ r ∈ rs, ¬ isBlank r.1)
    (hlen : rs.length ≤ qs.length) :
    ∃ s1, practiceRounds s rs = some s1 ∧
      (rs.length < qs.length →
        s1.step = Step.practice ∧ s1.currentQuestion = rs.length) ∧
      (rs.length = qs.length → s1.step = Step.complete) := by
  obtain ⟨s1, h, h1, h2⟩ := practiceRounds_spec qs rs s hstep hq (by omega) hans (by omega)
  refine ⟨s1, h, fun hlt => ?_, fun heq => h2 (by omega)⟩
  have := h1 (by omega)
  exact ⟨this.1, by omega⟩

theorem practice_rounds_reach_complete_witness :
    1 ≤ scenarioQuestions.length ∧ scenarioPractice.step = Step.practice ∧
    scenarioPractice.currentQuestion = 0 ∧
    scenarioPractice.questions = JVal.arr (scenarioQuestions.map Question.toJVal) ∧
    (∀ r ∈ scenarioRounds, ¬ isBlank r.1) ∧
    scenarioRounds.length ≤ scenarioQuestions.length ∧
    ∃ s1, practiceRounds scenarioPractice scenarioRounds = some s1 ∧
      s1.step = Step.complete :=
  have hans : ∀ r ∈ scenarioRounds, ¬ isBlank r.1 := by
    intro r hr
    simp only [scenarioRounds, List.mem_cons, List.mem_singleton, List.not_mem_nil,
      or_false] at hr
    rcases hr with rfl | rfl | rfl
    · exact not_isBlank_of_mem _ 'A' (by simp) (by decide)
    · exact not_isBlank_of_mem _ 'B' (by simp) (by decide)
    · exact not_isBlank_of_mem _ 'W' (by simp) (by decide)
  ⟨by decide, scenarioPractice_fields.1, scenarioPractice_fields.2.1,
    scenarioPractice_fields.2.2, hans, by decide,
    (practice_rounds_reach_complete scenarioPractice scenarioQuestions scenarioRounds
      (by decide) scenarioPractice_fields.1 scenarioPractice_fields.2.1
      scenarioPractice_fields.2.2 hans (by decide)).elim
      (fun s1 h => ⟨s1, h.1, h.2.2 rfl⟩)⟩

/-! ## Start of practice -/

/-- C9, the claim fails: the state on the questions screen that a success
response with an empty `questions` array leads to is reachable, and Start
Practice moves it to the practice screen although the list is empty, where
`questions[currentQuestion]` is out of range. -/
theorem startPractice_on_empty_questions :
    Reachable emptyQuestionsState ∧
    emptyQuestionsState.step = Step.questions ∧
    emptyQuestionsState.questions = JVal.arr [] ∧
    (startPractice emptyQuestionsState).step = Step.practice ∧
    ([] : List JVal)[(startPractice emptyQuestionsState).currentQuestion]? = none := by
  refine ⟨Reachable.generate _ _ reachable_backendEngineerForm rfl, ?_, ?_, rfl, rfl⟩
  · simp [emptyQuestionsState, handleGenerateQuestions, backendEngineerForm, setJobData,
      initialState, JVal.getProp, lookupField]
  · simp [emptyQuestionsState, handleGenerateQuestions, backendEngineerForm, setJobData,
      initialState, JVal.getProp, lookupField]

/-- C9 as amended: Start Practice has no guard and writes only `step`; from
every reachable state on the questions screen it moves to the practice
screen, the index of the resulting state is `0` because it already was, and
when the questions are a non-empty list `questions[currentQuestion]` is in
range. -/
theorem startPractice_from_questions (s : State)
    (hreach : Reachable s) (hstep : s.step = Step.questions) :
    startPractice s = { s with step := Step.practice } ∧
    (startPractice s).step = Step.practice ∧
    (startPractice s).currentQuestion = 0 ∧
    (∀ xs, (startPractice s).questions = JVal.arr xs → xs ≠ [] →
      ∃ q, xs[(startPractice s).currentQuestion]? = some q) := by
  have h0 : s.currentQuestion = 0 := (reachable_indexInv s hreach).1 (Or.inr hstep)
  refine ⟨rfl, rfl, h0, fun xs _ hne => ?_⟩
  show ∃ q, xs[s.currentQuestion]? = some q
  rw [h0]
  cases xs with
  | nil => exact absurd rfl hne
  | cons q rest => exact ⟨q, by simp⟩

theorem startPractice_from_questions_witness :
    Reachable oneQuestionState ∧ oneQuestionState.step = Step.questions ∧
    (startPractice oneQuestionState).step = Step.practice ∧
    (startPractice oneQuestionState).currentQuestion = 0 :=
  have hreach : Reachable oneQuestionState :=
    Reachable.generate _ _ reachable_backendEngineerForm rfl
  have hstep : oneQuestionState.step = Step.questions := by
    simp [oneQuestionState, handleGenerateQuestions, backendEngineerForm, setJobData,
      initialState, JVal.getProp, lookupField]
  ⟨hreach, hstep, (startPractice_from_questions oneQuestionState hreach hstep).2.1,
    (startPractice_from_questions oneQuestionState hreach hstep).2.2.1⟩

/-! ## Response bodies -/

/-- C10, the claim fails: the body `{"questions": [{}]}` carries no question
record, yet with a success status Generate leaves the input screen for the
questions screen, sets no error and replaces the questions by the array
received. -/
theorem malformed_body_accepted :
    isQuestionsBody (JVal.obj [("questions", JVal.arr [JVal.obj []])]) = false ∧
    (handleGenerateQuestions backendEngineerForm (Response.status true
      (some (JVal.obj [("questions", JVal.arr [JVal.obj []])])))).1.step = Step.questions ∧
    (handleGenerateQuestions backendEngineerForm (Response.status true
      (some (JVal.obj [("questions", JVal.arr [JVal.obj []])])))).1.error = "" ∧
    (handleGenerateQuestions backendEngineerForm (Response.status true
      (some (JVal.obj [("questions", JVal.arr [JVal.obj []])])))).1.questions =
      JVal.arr [JVal.obj []] ∧
    backendEngineerForm.questions = JVal.arr [] := by
  refine ⟨by simp [isQuestionsBody, isQuestionRecord, lookupField], ?_, ?_, ?_, rfl⟩ <;>
  simp [handleGenerateQuestions, backendEngineerForm, setJobData,
      initialState, JVal.getProp, lookupField]

/-- C10 as amended: on the input screen with both fields filled and a
success status, a body that does not parse as JSON, or that parses to
`null`, is treated as a failure (input screen, the generic message,
questions as before); every other body is taken without a look at its
shape: the questions become its `questions` property, `undefined` when it
has none, and the questions screen is shown. -/
theorem success_body_handling (s : State)
    (hstep : s.step = Step.input)
    (htitle : s.jobData.title ≠ "") (hdesc : s.jobData.description ≠ "") :
    (∀ body : Option JVal, (body = none ∨ body = some JVal.null) →
      (handleGenerateQuestions s (Response.status true body)).1.step = Step.input ∧
      (handleGenerateQuestions s (Response.status true body)).1.error =
        "Failed to generate questions. Please try again." ∧
      (handleGenerateQuestions s (Response.status true body)).1.questions = s.questions) ∧
    (∀ data : JVal, data.isNullish = false →
      ∃ qs, data.getProp "questions" = some qs ∧
      (handleGenerateQuestions s (Response.status true (some data))).1.step =
        Step.questions ∧
      (handleGenerateQuestions s (Response.status true (some data))).1.error = "" ∧
      (handleGenerateQuestions s (Response.status true (some data))).1.questions = qs) := by
  have hg : ¬ (s.jobData.title = "" ∨ s.jobData.description = "") := by simp [htitle, hdesc]
  constructor
  · rintro body (rfl | rfl) <;>
    simp [handleGenerateQuestions, hg, generateFailed, hstep, JVal.getProp]
  · intro data hnn
    have hex : ∃ qs, data.getProp "questions" = some qs := by
      cases data with
      | undefined => simp [JVal.isNullish] at hnn
      | null => simp [JVal.isNullish] at hnn
      | obj fields =>
        simp only [JVal.getProp]
        cases lookupField "questions" fields <;> simp
      | _ => exact ⟨JVal.undefined, rfl⟩
    obtain ⟨qs, hqs⟩ := hex
    refine ⟨qs, hqs, ?_⟩
    simp [handleGenerateQuestions, hg, hqs]

theorem success_body_handling_witness :
    backendEngineerForm.step = Step.input ∧
    backendEngineerForm.jobData.title ≠ "" ∧
    backendEngineerForm.jobData.description ≠ "" ∧
    (handleGenerateQuestions backendEngineerForm
      (Response.status true none)).1.step = Step.input ∧
    (handleGenerateQuestions backendEngineerForm
      (Response.status true none)).1.error =
        "Failed to generate questions. Please try again." :=
  have h1 : backendEngineerForm.jobData.title ≠ "" := by
    simp [backendEngineerForm, setJobData]
  have h2 : backendEngineerForm.jobData.description ≠ "" := by
    simp [backendEngineerForm, setJobData]
  ⟨rfl, h1, h2,
    ((success_body_handling backendEngineerForm rfl h1 h2).1 none (Or.inl rfl)).1,
    ((success_body_handling backendEngineerForm rfl h1 h2).1 none (Or.inl rfl)).2.1⟩

/-! ## Rounding of the progress percentage -/

theorem roundHalfEven_eq (q : ℚ) (m : ℤ) (h : |q - (m : ℚ)| < 1 / 2) : roundHalfEven q = m := by
  rw [abs_lt] at h
  have h1 : (⌊q⌋ : ℚ) ≤ q := Int.floor_le q
  have h2 : q < (⌊q⌋ : ℚ) + 1 := Int.lt_floor_add_one q
  unfold roundHalfEven
  simp only
  split_ifs with ha hb hc
  · have : (⌊q⌋ : ℚ) < (m : ℚ) + 1 := by linarith [h.1]
    have h3 : (m : ℚ) < (⌊q⌋ : ℚ) + 1 := by linarith [h.2]
    have a1 : ⌊q⌋ < m + 1 := by exact_mod_cast this
    have a2 : m < ⌊q⌋ + 1 := by exact_mod_cast h3
    omega
  · have : (⌊q⌋ : ℚ) + 1 < (m : ℚ) + 1 := by linarith [h.1]
    have h3 : (m : ℚ) < (⌊q⌋ : ℚ) + 1 + 1 := by linarith [h.2]
    have a1 : ⌊q⌋ + 1 < m + 1 + 1 := by
      have : (⌊q⌋ : ℚ) + 1 < (m : ℚ) + 1 + 1 := by linarith
      exact_mod_cast this
    have a2 : m < ⌊q⌋ + 1 + 1 := by exact_mod_cast h3
    have b1 : (m : ℚ) - 1 < (⌊q⌋ : ℚ) + 1 - 1 + 1/2 := by linarith
    have a3 : ⌊q⌋ < m := by
      have : (⌊q⌋ : ℚ) < (m : ℚ) := by linarith [h.1]
      exact_mod_cast this
    omega
  · exfalso
    have hr : q - (⌊q⌋ : ℚ) = 1 / 2 := le_antisymm (not_lt.mp hb) (not_lt.mp ha)
    have a1 : ⌊q⌋ < m := by
      have : (⌊q⌋ : ℚ) < (m : ℚ) := by linarith [h.1]
      exact_mod_cast this
    have a2 : m < ⌊q⌋ + 1 := by
      have : (m : ℚ) < (⌊q⌋ : ℚ) + 1 := by linarith [h.2]
      exact_mod_cast this
    omega
  · exfalso
    have hr : q - (⌊q⌋ : ℚ) = 1 / 2 := le_antisymm (not_lt.mp hb) (not_lt.mp ha)
    have a1 : ⌊q⌋ < m := by
      have : (⌊q⌋ : ℚ) < (m : ℚ) := by linarith [h.1]
      exact_mod_cast this
    have a2 : m < ⌊q⌋ + 1 := by
      have : (m : ℚ) < (⌊q⌋ : ℚ) + 1 := by linarith [h.2]
      exact_mod_cast this
    omega

theorem toDouble_eq (q : ℚ) (e m : ℤ) (hq : 0 < q)
    (h1 : (2 : ℚ) ^ e ≤ q) (h2 : q < (2 : ℚ) ^ (e + 1))
    (hm : |q / (2 : ℚ) ^ (e - 52) - (m : ℚ)| < 1 / 2) :
    toDouble q = (m : ℚ) * (2 : ℚ) ^ (e - 52) := by
  have hlog : Int.log 2 |q| = e := by
    rw [abs_of_pos hq]
    apply le_antisymm
    · have : Int.log 2 q < e + 1 := by
        rw [← Int.lt_zpow_iff_log_lt (by norm_num) hq]
        simpa using h2
      omega
    · rw [← Int.zpow_le_iff_le_log (by norm_num) hq]
      simpa using h1
  unfold toDouble
  rw [if_neg (ne_of_gt hq)]
  simp only
  rw [hlog, roundHalfEven_eq _ m hm]

theorem roundHalfEven_error (q : ℚ) : |(roundHalfEven q : ℚ) - q| ≤ 1 / 2 := by
  have h1 : (⌊q⌋ : ℚ) ≤ q := Int.floor_le q
  have h2 : q < (⌊q⌋ : ℚ) + 1 := Int.lt_floor_add_one q
  unfold roundHalfEven
  simp only
  rw [abs_le]
  split_ifs with ha hb hc
  · constructor <;> linarith
  · push_cast
    constructor <;> linarith
  · constructor <;> linarith
  · push_cast
    constructor <;> linarith

theorem toDouble_error (q : ℚ) (hq : 0 < q) : |toDouble q - q| ≤ q / 2 ^ 53 := by
  have hne : q ≠ 0 := ne_of_gt hq
  have hu : (0 : ℚ) < (2 : ℚ) ^ (Int.log 2 |q| - 52) := by positivity
  have hlog : (2 : ℚ) ^ Int.log 2 |q| ≤ q := by
    have := Int.zpow_log_le_self (R := ℚ) (b := 2) (by norm_num) hq
    rw [abs_of_pos hq]
    simpa using this
  have hsplit : (2 : ℚ) ^ (Int.log 2 |q| - 52) = (2 : ℚ) ^ Int.log 2 |q| / 2 ^ 52 := by
    rw [zpow_sub₀ (by norm_num)]
    norm_num
  have herr := roundHalfEven_error (q / (2 : ℚ) ^ (Int.log 2 |q| - 52))
  unfold toDouble
  rw [if_neg hne]
  simp only
  set u : ℚ := (2 : ℚ) ^ (Int.log 2 |q| - 52) with hudef
  have hrewrite : (roundHalfEven (q / u) : ℚ) * u - q = ((roundHalfEven (q / u) : ℚ) - q / u) * u := by
    field_simp
  rw [hrewrite, abs_mul, abs_of_pos hu]
  have hbound : |(roundHalfEven (q / u) : ℚ) - q / u| * u ≤ 1 / 2 * u :=
    mul_le_mul_of_nonneg_right herr hu.le
  have hu2 : 1 / 2 * u ≤ q / 2 ^ 53 := by
    rw [hsplit]
    have : (2 : ℚ) ^ Int.log 2 |q| / 2 ^ 52 * (1 / 2) = (2 : ℚ) ^ Int.log 2 |q| / 2 ^ 53 := by
      norm_num
      ring
    rw [mul_comm, this]
    exact div_le_div_of_nonneg_right hlog (by positivity)
  linarith

theorem toDouble_zero : toDouble 0 = 0 := by
  simp [toDouble]

theorem progress_value_error (i N : ℕ) (hN : 1 ≤ N) (hi : i < N) :
    |toDouble (toDouble ((i : ℚ) / (N : ℚ)) * 100) - 100 * (i : ℚ) / (N : ℚ)| ≤ 300 / 2 ^ 53 := by
  rcases Nat.eq_zero_or_pos i with h0 | hpos
  · subst h0
    simp [toDouble_zero]
    positivity
  · have hNq : (0 : ℚ) < (N : ℚ) := by exact_mod_cast hN
    have hiq : (0 : ℚ) < (i : ℚ) := by exact_mod_cast hpos
    have hx0 : (0 : ℚ) < (i : ℚ) / (N : ℚ) := div_pos hiq hNq
    have hx1 : (i : ℚ) / (N : ℚ) < 1 := by
      rw [div_lt_one hNq]
      exact_mod_cast hi
    set x : ℚ := (i : ℚ) / (N : ℚ) with hx
    have e1 := toDouble_error x hx0
    rw [abs_le] at e1
    set y : ℚ := toDouble x with hy
    have hy0 : 0 < y := by
      have : x / 2 ^ 53 < x := by
        rw [div_lt_iff₀ (by positivity)]
        nlinarith
      linarith [e1.1]
    have e2 := toDouble_error (y * 100) (by positivity)
    rw [abs_le] at e2
    set z : ℚ := toDouble (y * 100) with hz
    have hxe : 100 * (i : ℚ) / (N : ℚ) = 100 * x := by
      rw [hx]
      ring
    rw [hxe, abs_le]
    have hxs : x / 2 ^ 53 ≤ 1 / 2 ^ 53 := by
      apply div_le_div_of_nonneg_right hx1.le (by positivity)
    have hys : y * 100 / 2 ^ 53 ≤ 200 / 2 ^ 53 := by
      apply div_le_div_of_nonneg_right _ (by positivity)
      have : x / 2 ^ 53 ≤ x := by
        rw [div_le_iff₀ (by positivity)]
        nlinarith
      linarith [e1.2]
    constructor <;> linarith [e1.1, e1.2, e2.1, e2.2]

/-- C2 as amended: for `1 ≤ N < 2 ^ 32` and `i < N` the percentage shown is
`100 * i / N` rounded to the nearest integer, not rounded down: it is
`floor(100 * i / N)` when the remainder of `100 * i` by `N` is below half of
`N`, one more when the remainder is above half of `N`, and one of the two
when it is exactly half of `N`. -/
theorem progressPercent_nearest (i N : ℕ) (hN : 1 ≤ N) (hi : i < N) (hmax : N < 2 ^ 32) :
    ∃ p : ℤ, progressPercent i N = some p ∧
      (2 * (100 * i % N) < N → p = ((100 * i / N : ℕ) : ℤ)) ∧
      (N < 2 * (100 * i % N) → p = ((100 * i / N : ℕ) : ℤ) + 1) ∧
      (2 * (100 * i % N) = N →
        p = ((100 * i / N : ℕ) : ℤ) ∨ p = ((100 * i / N : ℕ) : ℤ) + 1) := by
  have hNne : N ≠ 0 := by omega
  have hNq : (0 : ℚ) < (N : ℚ) := by exact_mod_cast hN
  have herr := progress_value_error i N hN hi
  rw [abs_le] at herr
  set z : ℚ := toDouble (toDouble ((i : ℚ) / (N : ℚ)) * 100) with hz
  set k : ℕ := 100 * i / N with hk
  set r : ℕ := 100 * i % N with hr
  have hdm : N * k + r = 100 * i := Nat.div_add_mod (100 * i) N
  have hrN : r < N := Nat.mod_lt _ (by omega)
  set d : ℚ := 1 / (N : ℚ) with hd
  have hdN : d * (N : ℚ) = 1 := by
    rw [hd]
    field_simp
  have hd0 : 0 < d := by positivity
  have hdlow : 1 / 2 ^ 32 ≤ d := by
    rw [hd]
    apply one_div_le_one_div_of_le hNq
    exact_mod_cast hmax.le
  have hval : 100 * (i : ℚ) / (N : ℚ) = (k : ℚ) + (r : ℚ) * d := by
    have : (100 : ℚ) * (i : ℚ) = (N : ℚ) * (k : ℚ) + (r : ℚ) := by exact_mod_cast hdm.symm
    rw [this, hd]
    field_simp
    ring
  rw [hval] at herr
  have hrd : (r : ℚ) * d + d ≤ 1 := by
    have : (r : ℚ) + 1 ≤ (N : ℚ) := by exact_mod_cast hrN
    calc (r : ℚ) * d + d = ((r : ℚ) + 1) * d := by ring
      _ ≤ (N : ℚ) * d := mul_le_mul_of_nonneg_right this hd0.le
      _ = 1 := by rw [mul_comm]; exact hdN
  have hr0 : (0 : ℚ) ≤ (r : ℚ) * d := by positivity
  have hdelta : (300 : ℚ) / 2 ^ 53 < 1 / 2 ^ 32 / 2 := by norm_num
  refine ⟨mathRound z, by simp [progressPercent, hNne, hz], ?_, ?_, ?_⟩
  · intro hlt
    have h2 : 2 * ((r : ℚ) * d) + d ≤ 1 := by
      have : 2 * (r : ℚ) + 1 ≤ (N : ℚ) := by exact_mod_cast hlt
      calc 2 * ((r : ℚ) * d) + d = (2 * (r : ℚ) + 1) * d := by ring
        _ ≤ (N : ℚ) * d := mul_le_mul_of_nonneg_right this hd0.le
        _ = 1 := by rw [mul_comm]; exact hdN
    unfold mathRound
    rw [Int.floor_eq_iff]
    push_cast
    constructor <;> linarith [herr.1, herr.2]
  · intro hgt
    have h2 : 1 + d ≤ 2 * ((r : ℚ) * d) := by
      have : (N : ℚ) + 1 ≤ 2 * (r : ℚ) := by exact_mod_cast hgt
      calc 1 + d = ((N : ℚ) + 1) * d := by rw [add_mul, mul_comm, hdN]; ring
        _ ≤ (2 * (r : ℚ)) * d := mul_le_mul_of_nonneg_right this hd0.le
        _ = 2 * ((r : ℚ) * d) := by ring
    unfold mathRound
    rw [Int.floor_eq_iff]
    push_cast
    constructor <;> linarith [herr.1, herr.2]
  · intro heq
    have h2 : 2 * ((r : ℚ) * d) = 1 := by
      have : 2 * (r : ℚ) = (N : ℚ) := by exact_mod_cast heq
      calc 2 * ((r : ℚ) * d) = (2 * (r : ℚ)) * d := by ring
        _ = (N : ℚ) * d := by rw [this]
        _ = 1 := by rw [mul_comm]; exact hdN
    unfold mathRound
    rcases lt_or_le (z + 1 / 2) ((k : ℚ) + 1) with hlt | hge
    · left
      rw [Int.floor_eq_iff]
      push_cast
      constructor <;> linarith [herr.1, herr.2]
    · right
      rw [Int.floor_eq_iff]
      push_cast
      constructor <;> linarith [herr.1, herr.2]

/-- C2, the claim fails: at index 2 of 3 questions the practice screen shows
67, while `floor(100 * 2 / 3)` is 66. -/
theorem progressPercent_two_of_three :
    progressPercent 2 3 = some 67 ∧ ((100 * 2 / 3 : ℕ) : ℤ) = 66 ∧
    progressPercent 2 3 ≠ some ((100 * 2 / 3 : ℕ) : ℤ) := by
  have hy : toDouble ((2 : ℚ) / 3) =
      (6004799503160661 : ℤ) * (2 : ℚ) ^ ((-1 : ℤ) - 52) := by
    apply toDouble_eq _ (-1) _ (by norm_num) (by norm_num) (by norm_num)
    rw [abs_lt]
    constructor <;> norm_num
  have hz : toDouble ((6004799503160661 : ℤ) * (2 : ℚ) ^ ((-1 : ℤ) - 52) * 100) =
      (4691249611844266 : ℤ) * (2 : ℚ) ^ ((6 : ℤ) - 52) := by
    apply toDouble_eq _ 6 _ (by norm_num) (by norm_num) (by norm_num)
    rw [abs_lt]
    constructor <;> norm_num
  have hcast : ((2 : ℕ) : ℚ) / ((3 : ℕ) : ℚ) = (2 : ℚ) / 3 := by norm_num
  have h67 : progressPercent 2 3 = some 67 := by
    unfold progressPercent
    rw [if_neg (by norm_num), hcast, hy, hz]
    unfold mathRound
    congr 1
    rw [Int.floor_eq_iff]
    constructor <;> norm_num
  refine ⟨h67, by norm_num, ?_⟩
  rw [h67]
  norm_num

theorem progressPercent_nearest_witness :
    (1 ≤ 4 ∧ 3 < 4 ∧ 4 < 2 ^ 32) ∧ progressPercent 3 4 = some 75 := by
  refine ⟨by norm_num, ?_⟩
  obtain ⟨p, hp, hfloor, -, -⟩ :=
    progressPercent_nearest 3 4 (by norm_num) (by norm_num) (by norm_num)
  rw [hp, hfloor (by norm_num)]
  norm_num

/-- When the remainder is exactly half of `N` both outcomes occur: 1 of 8
shows 13 (`12.5` is a double and `Math.round` takes it up), 23 of 40 shows
57 (the double product is just below `57.5`). -/
theorem progressPercent_ties :
    progressPercent 1 8 = some 13 ∧ progressPercent 23 40 = some 57 := by
  constructor
  · have hy : toDouble ((1 : ℚ) / 8) =
        (4503599627370496 : ℤ) * (2 : ℚ) ^ ((-3 : ℤ) - 52) := by
      apply toDouble_eq _ (-3) _ (by norm_num) (by norm_num) (by norm_num)
      rw [abs_lt]
      constructor <;> norm_num
    have hz : toDouble ((4503599627370496 : ℤ) * (2 : ℚ) ^ ((-3 : ℤ) - 52) * 100) =
        (7036874417766400 : ℤ) * (2 : ℚ) ^ ((3 : ℤ) - 52) := by
      apply toDouble_eq _ 3 _ (by norm_num) (by norm_num) (by norm_num)
      rw [abs_lt]
      constructor <;> norm_num
    have hcast : ((1 : ℕ) : ℚ) / ((8 : ℕ) : ℚ) = (1 : ℚ) / 8 := by norm_num
    unfold progressPercent
    rw [if_neg (by norm_num), hcast, hy, hz]
    unfold mathRound
    congr 1
    rw [Int.floor_eq_iff]
    constructor <;> norm_num
  · have hy : toDouble ((23 : ℚ) / 40) =
        (5179139571476070 : ℤ) * (2 : ℚ) ^ ((-1 : ℤ) - 52) := by
      apply toDouble_eq _ (-1) _ (by norm_num) (by norm_num) (by norm_num)
      rw [abs_lt]
      constructor <;> norm_num
    have hz : toDouble ((5179139571476070 : ℤ) * (2 : ℚ) ^ ((-1 : ℤ) - 52) * 100) =
        (8092405580431359 : ℤ) * (2 : ℚ) ^ ((5 : ℤ) - 52) := by
      apply toDouble_eq _ 5 _ (by norm_num) (by norm_num) (by norm_num)
      rw [abs_lt]
      constructor <;> norm_num
    have hcast : ((23 : ℕ) : ℚ) / ((40 : ℕ) : ℚ) = (23 : ℚ) / 40 := by norm_num
    unfold progressPercent
    rw [if_neg (by norm_num), hcast, hy, hz]
    unfold mathRound
    congr 1
    rw [Int.floor_eq_iff]
    constructor <;> norm_num

end InterviewIQ
